import Mathlib

/-!
Verification of the request-decoding and response contract of the
stormasm/request-examples repository.  The repository's own code is the
test schema (its `test` and `writeTest` resolvers) and a set of HTTP
test scenarios; the GraphQL-over-HTTP middleware they exercise is an
external library, so the body decoder, operation executor and HTTP
adapter below are modelled from the specification's contract (section 4
of the spec), while the resolvers are embedded from the source files.
-/

namespace ReqEx

/-- JSON values as produced by a JavaScript JSON parse.  Number literals
keep their source text so that serialization round-trips. -/
inductive Json where
  | null : Json
  | bool (b : Bool) : Json
  | num (lit : String) : Json
  | str (s : String) : Json
  | arr (xs : List Json) : Json
  | obj (fields : List (String × Json)) : Json
  deriving Repr

/-- Hexadecimal digit for escape rendering. -/
def hexDigit (n : Nat) : Char :=
  if n < 10 then Char.ofNat (48 + n) else Char.ofNat (87 + (n % 16))

/-- Escape one character the way a JavaScript JSON stringifier does. -/
def escapeChar (c : Char) : String :=
  if c = '"' then "\\\""
  else if c = '\\' then "\\\\"
  else if c = '\n' then "\\n"
  else if c = '\r' then "\\r"
  else if c = '\t' then "\\t"
  else if c = '\x08' then "\\b"
  else if c = '\x0c' then "\\f"
  else if c.toNat < 32 then
    "\\u00" ++ (hexDigit (c.toNat / 16)).toString ++ (hexDigit (c.toNat % 16)).toString
  else c.toString

/-- Escape a whole string for JSON output. -/
def escapeString (s : String) : String :=
  String.join (s.toList.map escapeChar)

/-- Join strings with commas between them. -/
def commaJoin : List String → String
  | [] => ""
  | [x] => x
  | x :: xs => x ++ "," ++ commaJoin xs

/-- Serialize a JSON value, fuelled by nesting depth only. -/
def renderAux : Nat → Json → String
  | 0, _ => ""
  | _ + 1, .null => "null"
  | _ + 1, .bool true => "true"
  | _ + 1, .bool false => "false"
  | _ + 1, .num lit => lit
  | _ + 1, .str s => "\"" ++ escapeString s ++ "\""
  | fuel + 1, .arr xs => "[" ++ commaJoin (xs.map (renderAux fuel)) ++ "]"
  | fuel + 1, .obj fs =>
    "\x7b" ++
      commaJoin (fs.map fun kv => "\"" ++ escapeString kv.1 ++ "\":" ++ renderAux fuel kv.2) ++
      "\x7d"

/-- Serialize a JSON value with no added whitespace, preserving object
key order, as the express app configured with zero json spaces does.
The fuel bounds nesting depth; every document the HTTP adapter
serializes (a data document over the two-level test schema or a
single-message errors document) nests four levels at most. -/
def renderJson (j : Json) : String :=
  renderAux 64 j

/-! ### Byte-level text codecs (UTF-8 and UTF-16LE) -/

/-- The Unicode replacement character, produced for ill-formed input. -/
def replChar : Char := Char.ofNat 0xFFFD

/-- Build a character from a code point, falling back to the replacement
character when the code point is not a Unicode scalar value. -/
def mkChar (n : Nat) : Char :=
  if n.isValidChar then Char.ofNat n else replChar

/-- UTF-8 encoding of one character. -/
def utf8EncodeChar (c : Char) : List Nat :=
  let n := c.toNat
  if n < 0x80 then [n]
  else if n < 0x800 then
    [0xC0 + n / 64, 0x80 + n % 64]
  else if n < 0x10000 then
    [0xE0 + n / 4096, 0x80 + (n / 64) % 64, 0x80 + n % 64]
  else
    [0xF0 + n / 262144, 0x80 + (n / 4096) % 64, 0x80 + (n / 64) % 64, 0x80 + n % 64]

/-- UTF-8 encoding of a string as a byte list. -/
def utf8Encode (s : String) : List Nat :=
  (s.toList.map utf8EncodeChar).flatten

/-- Is this byte a UTF-8 continuation byte? -/
def isCont (b : Nat) : Bool := 0x80 ≤ b ∧ b < 0xC0

/-- UTF-8 decoding, fuelled by the length of the byte list; ill-formed
sequences decode to the replacement character. -/
def utf8DecodeAux : Nat → List Nat → List Char
  | 0, _ => []
  | _, [] => []
  | fuel + 1, b :: bs =>
    if b < 0x80 then mkChar b :: utf8DecodeAux fuel bs
    else if 0xC0 ≤ b ∧ b < 0xE0 then
      match bs with
      | b1 :: bs1 =>
        if isCont b1 then mkChar ((b - 0xC0) * 64 + (b1 - 0x80)) :: utf8DecodeAux fuel bs1
        else replChar :: utf8DecodeAux fuel bs
      | [] => [replChar]
    else if 0xE0 ≤ b ∧ b < 0xF0 then
      match bs with
      | b1 :: b2 :: bs2 =>
        if isCont b1 ∧ isCont b2 then
          mkChar ((b - 0xE0) * 4096 + (b1 - 0x80) * 64 + (b2 - 0x80)) :: utf8DecodeAux fuel bs2
        else replChar :: utf8DecodeAux fuel bs
      | _ => [replChar]
    else if 0xF0 ≤ b ∧ b < 0xF8 then
      match bs with
      | b1 :: b2 :: b3 :: bs3 =>
        if isCont b1 ∧ isCont b2 ∧ isCont b3 then
          mkChar ((b - 0xF0) * 262144 + (b1 - 0x80) * 4096 + (b2 - 0x80) * 64 + (b3 - 0x80))
            :: utf8DecodeAux fuel bs3
        else replChar :: utf8DecodeAux fuel bs
      | _ => [replChar]
    else replChar :: utf8DecodeAux fuel bs

/-- Decode a byte list as UTF-8 text. -/
def utf8Decode (bs : List Nat) : String :=
  String.mk (utf8DecodeAux bs.length bs)

/-- UTF-16LE decoding, fuelled by the length of the byte list; surrogate
pairs combine into astral code points, lone surrogates become the
replacement character, and a trailing odd byte is dropped. -/
def utf16leDecodeAux : Nat → List Nat → List Char
  | 0, _ => []
  | _, [] => []
  | _ + 1, [_] => []
  | fuel + 1, b0 :: b1 :: bs =>
    let u := b0 % 256 + 256 * (b1 % 256)
    if 0xD800 ≤ u ∧ u < 0xDC00 then
      match bs with
      | c0 :: c1 :: bs2 =>
        let v := c0 % 256 + 256 * (c1 % 256)
        if 0xDC00 ≤ v ∧ v < 0xE000 then
          mkChar (0x10000 + (u - 0xD800) * 1024 + (v - 0xDC00)) :: utf16leDecodeAux fuel bs2
        else replChar :: utf16leDecodeAux fuel bs
      | _ => [replChar]
    else if 0xDC00 ≤ u ∧ u < 0xE000 then replChar :: utf16leDecodeAux fuel bs
    else mkChar u :: utf16leDecodeAux fuel bs

/-- Decode a byte list as UTF-16 little-endian text. -/
def utf16leDecode (bs : List Nat) : String :=
  String.mk (utf16leDecodeAux bs.length bs)

/-- UTF-16LE encoding of one character. -/
def utf16leEncodeChar (c : Char) : List Nat :=
  let n := c.toNat
  if n < 0x10000 then [n % 256, n / 256]
  else
    let m := n - 0x10000
    let hi := 0xD800 + m / 1024
    let lo := 0xDC00 + m % 1024
    [hi % 256, hi / 256, lo % 256, lo / 256]

/-- UTF-16LE encoding of a string as a byte list. -/
def utf16leEncode (s : String) : List Nat :=
  (s.toList.map utf16leEncodeChar).flatten

/-! ### A JSON text reader, modelling the JavaScript JSON parse -/

/-- Is this a JSON whitespace character? -/
def isJsonWs (c : Char) : Bool := c = ' ' ∨ c = '\n' ∨ c = '\t' ∨ c = '\r'

/-- Drop leading JSON whitespace. -/
def skipJsonWs (cs : List Char) : List Char := cs.dropWhile isJsonWs

/-- Value of a hexadecimal digit character, if any. -/
def hexVal (c : Char) : Option Nat :=
  if '0' ≤ c ∧ c ≤ '9' then some (c.toNat - 48)
  else if 'a' ≤ c ∧ c ≤ 'f' then some (c.toNat - 87)
  else if 'A' ≤ c ∧ c ≤ 'F' then some (c.toNat - 55)
  else none

/-- Read the body of a JSON string literal after the opening quote,
fuelled; returns the decoded characters and the input after the closing
quote.  Surrogate pairs written with two \u escapes combine; a lone
surrogate becomes the replacement character. -/
def readJsonString : Nat → List Char → Option (List Char × List Char)
  | 0, _ => none
  | _, [] => none
  | fuel + 1, c :: cs =>
    if c = '"' then some ([], cs)
    else if c = '\\' then
      match cs with
      | [] => none
      | e :: cs1 =>
        if e = 'u' then
          match cs1 with
          | h1 :: h2 :: h3 :: h4 :: cs2 =>
            match hexVal h1, hexVal h2, hexVal h3, hexVal h4 with
            | some a, some b, some c3, some d =>
              let u := a * 4096 + b * 256 + c3 * 16 + d
              if 0xD800 ≤ u ∧ u < 0xDC00 then
                match cs2 with
                | '\\' :: 'u' :: g1 :: g2 :: g3 :: g4 :: cs3 =>
                  match hexVal g1, hexVal g2, hexVal g3, hexVal g4 with
                  | some a2, some b2, some c2, some d2 =>
                    let v := a2 * 4096 + b2 * 256 + c2 * 16 + d2
                    if 0xDC00 ≤ v ∧ v < 0xE000 then
                      (readJsonString fuel cs3).map fun r =>
                        (mkChar (0x10000 + (u - 0xD800) * 1024 + (v - 0xDC00)) :: r.1, r.2)
                    else none
                  | _, _, _, _ => none
                | _ =>
                  (readJsonString fuel cs2).map fun r => (replChar :: r.1, r.2)
              else
                (readJsonString fuel cs2).map fun r => (mkChar u :: r.1, r.2)
            | _, _, _, _ => none
          | _ => none
        else
          let dec : Option Char :=
            if e = '"' then some '"'
            else if e = '\\' then some '\\'
            else if e = '/' then some '/'
            else if e = 'n' then some '\n'
            else if e = 't' then some '\t'
            else if e = 'r' then some '\r'
            else if e = 'b' then some '\x08'
            else if e = 'f' then some '\x0c'
            else none
          match dec with
          | some d => (readJsonString fuel cs1).map fun r => (d :: r.1, r.2)
          | none => none
    else if c.toNat < 32 then none
    else (readJsonString fuel cs).map fun r => (c :: r.1, r.2)

/-- Is this character part of a JSON number literal? -/
def isNumChar (c : Char) : Bool :=
  c.isDigit ∨ c = '-' ∨ c = '+' ∨ c = '.' ∨ c = 'e' ∨ c = 'E'

/-- A pending unit of JSON reading work: one value, the members of an
object, or the elements of an array, the flag marking whether we stand
before the first member or element. -/
inductive ReadTask where
  | value : ReadTask
  | members (first : Bool) : ReadTask
  | elems (first : Bool) : ReadTask

/-- Read one JSON reading task, fuelled. -/
def readJsonAux : Nat → ReadTask → List Char → Option (Json × List Char)
  | 0, _, _ => none
  | fuel + 1, .value, cs =>
    match skipJsonWs cs with
    | [] => none
    | c :: cs1 =>
      if c = '"' then
        (readJsonString fuel cs1).map fun r => (Json.str (String.mk r.1), r.2)
      else if c = '\x7b' then readJsonAux fuel (.members true) cs1
      else if c = '[' then readJsonAux fuel (.elems true) cs1
      else if c = 'n' then
        match cs1 with
        | 'u' :: 'l' :: 'l' :: cs2 => some (Json.null, cs2)
        | _ => none
      else if c = 't' then
        match cs1 with
        | 'r' :: 'u' :: 'e' :: cs2 => some (Json.bool true, cs2)
        | _ => none
      else if c = 'f' then
        match cs1 with
        | 'a' :: 'l' :: 's' :: 'e' :: cs2 => some (Json.bool false, cs2)
        | _ => none
      else if c.isDigit ∨ c = '-' then
        let lit := (c :: cs1).takeWhile isNumChar
        some (Json.num (String.mk lit), (c :: cs1).dropWhile isNumChar)
      else none
  | fuel + 1, .members first, cs =>
    match skipJsonWs cs with
    | [] => none
    | c :: cs1 =>
      if c = '\x7d' then some (Json.obj [], cs1)
      else
        let afterSep : Option (List Char) :=
          if first then some (c :: cs1)
          else if c = ',' then some cs1 else none
        match afterSep with
        | none => none
        | some cs2 =>
          match skipJsonWs cs2 with
          | '"' :: cs3 =>
            match readJsonString fuel cs3 with
            | none => none
            | some (k, cs4) =>
              match skipJsonWs cs4 with
              | ':' :: cs5 =>
                match readJsonAux fuel .value cs5 with
                | none => none
                | some (v, cs6) =>
                  match readJsonAux fuel (.members false) cs6 with
                  | some (Json.obj fs, cs7) => some (Json.obj ((String.mk k, v) :: fs), cs7)
                  | _ => none
              | _ => none
          | _ => none
  | fuel + 1, .elems first, cs =>
    match skipJsonWs cs with
    | [] => none
    | c :: cs1 =>
      if c = ']' then some (Json.arr [], cs1)
      else
        let afterSep : Option (List Char) :=
          if first then some (c :: cs1)
          else if c = ',' then some cs1 else none
        match afterSep with
        | none => none
        | some cs2 =>
          match readJsonAux fuel .value cs2 with
          | none => none
          | some (v, cs3) =>
            match readJsonAux fuel (.elems false) cs3 with
            | some (Json.arr xs, cs4) => some (Json.arr (v :: xs), cs4)
            | _ => none

/-- Parse a whole string as one JSON value, as the JavaScript JSON
parse does: trailing content other than whitespace is an error. -/
def parseJson (s : String) : Option Json :=
  match readJsonAux (2 * s.length + 8) .value s.toList with
  | some (v, rest) => if skipJsonWs rest = [] then some v else none
  | none => none

/-! ### Content-type header and URL-encoded form reading -/

/-- Modelled from the spec: the content type of a request, its MIME
type lowercased with parameters stripped for dispatch, the charset
parameter preserved for text decoding. -/
structure ContentType where
  mime : String
  charset : Option String
  deriving Repr, DecidableEq

/-- Split a character list at every occurrence of a separator. -/
def splitChars (sep : Char) : List Char → List (List Char)
  | [] => [[]]
  | c :: cs =>
    let r := splitChars sep cs
    if c = sep then [] :: r
    else
      match r with
      | h :: t => (c :: h) :: t
      | [] => [[c]]

/-- Drop whitespace from both ends of a character list. -/
def trimChars (cs : List Char) : List Char :=
  ((cs.dropWhile isJsonWs).reverse.dropWhile isJsonWs).reverse

/-- Does the second list start with the first? -/
def charsHaveStart : List Char → List Char → Bool
  | [], _ => true
  | _ :: _, [] => false
  | p :: ps, c :: cs => p = c ∧ charsHaveStart ps cs

/-- Modelled from the spec: split a Content-Type header into the MIME
type portion (case-insensitive, parameters after the semicolon ignored)
and the charset parameter when one is present. -/
def parseContentType (header : String) : ContentType :=
  let parts := (splitChars ';' (header.toList.map Char.toLower)).map trimChars
  match parts with
  | [] => { mime := "", charset := none }
  | mime :: params =>
    let cset := params.filterMap fun p =>
      if charsHaveStart "charset=".toList p then some (String.mk (p.drop 8)) else none
    { mime := String.mk mime, charset := cset.head? }

/-- Modelled from the spec: decode the decompressed body bytes as text
using the charset given in the Content-Type, defaulting to UTF-8, with
UTF-16LE also supported. -/
def decodeCharset (cset : Option String) (bs : List Nat) : String :=
  match cset with
  | some c =>
    if c = "utf-16le" ∨ c = "utf-16" ∨ c = "utf16le" ∨ c = "utf16" then utf16leDecode bs
    else utf8Decode bs
  | none => utf8Decode bs

/-- Percent-decode one URL-encoded component into bytes, fuelled; a plus
sign stands for a space and a percent sign introduces two hex digits. -/
def percentDecodeAux : Nat → List Char → List Nat
  | 0, _ => []
  | _, [] => []
  | fuel + 1, c :: cs =>
    if c = '+' then 32 :: percentDecodeAux fuel cs
    else if c = '%' then
      match cs with
      | h1 :: h2 :: cs2 =>
        match hexVal h1, hexVal h2 with
        | some a, some b => (a * 16 + b) :: percentDecodeAux fuel cs2
        | _, _ => utf8EncodeChar c ++ percentDecodeAux fuel cs
      | _ => utf8EncodeChar c ++ percentDecodeAux fuel cs
    else utf8EncodeChar c ++ percentDecodeAux fuel cs

/-- Percent-decode a URL-encoded component to text. -/
def percentDecode (s : String) : String :=
  utf8Decode (percentDecodeAux s.length s.toList)

/-- Split a key-value pair at its first equals sign; a pair with no
equals sign binds the whole text to the empty value. -/
def splitKV : List Char → List Char × List Char
  | [] => ([], [])
  | '=' :: rest => ([], rest)
  | c :: rest =>
    let r := splitKV rest
    (c :: r.1, r.2)

/-- Split a URL-encoded body into decoded key-value pairs, splitting
each pair at its first equals sign as the node querystring module does. -/
def parseUrlencoded (s : String) : List (String × String) :=
  (splitChars '&' s.toList).filterMap fun pair =>
    if pair = [] then none
    else
      let kv := splitKV pair
      some (percentDecode (String.mk kv.1), percentDecode (String.mk kv.2))

/-- First value bound to a key in an association list of strings. -/
def lookupStr (kvs : List (String × String)) (k : String) : Option String :=
  (kvs.find? fun p => p.fst = k).map Prod.snd

/-- First value bound to a key in a JSON object field list. -/
def lookupField (fs : List (String × Json)) (k : String) : Option Json :=
  (fs.find? fun p => p.fst = k).map Prod.snd

/-! ### The body decoder, modelled from the spec -/

/-- Modelled from the spec: the decode-stage error kinds. -/
inductive DecodeError where
  | badEncoding : DecodeError
  | badJson : DecodeError
  | badVariablesJson : DecodeError
  | missingQuery : DecodeError
  deriving Repr, DecidableEq

/-- Modelled from the spec: the accepted Content-Encoding values. -/
inductive ContentEncoding where
  | identity : ContentEncoding
  | gzip : ContentEncoding
  | deflate : ContentEncoding
  deriving Repr, DecidableEq

/-- Modelled from the spec: the external byte-level collaborators of
the decoder: the zlib gunzip and inflate routines, taken as abstract
codecs returning none on corrupt input, and the multipart form parser
(multer in the source tests), taken as an abstract extractor of the
named text fields of a multipart body; uploaded files reach resolvers
through the execution context and are opaque to the decoder. -/
structure Codecs where
  gunzip : List Nat → Option (List Nat)
  inflate : List Nat → Option (List Nat)
  formFields : List Nat → List (String × String)

/-- Modelled from the spec: decompress the raw body bytes fully before
any interpretation; decompression failure is a fatal BadEncoding. -/
def decompress (cs : Codecs) (enc : ContentEncoding) (bs : List Nat) :
    Except DecodeError (List Nat) :=
  match enc with
  | .identity => .ok bs
  | .gzip =>
    match cs.gunzip bs with
    | some b => .ok b
    | none => .error .badEncoding
  | .deflate =>
    match cs.inflate bs with
    | some b => .ok b
    | none => .error .badEncoding

/-- Modelled from the spec: the fields obtainable from the request body
before the query-string merge; a JSON body may carry any JSON value in
each slot. -/
structure RawOperation where
  query : Option Json
  vars : Option Json
  operationName : Option Json
  deriving Repr

/-- Modelled from the spec: the query-string parameters relevant to
decoding; URL transport only carries strings. -/
structure Params where
  query : Option String
  vars : Option String
  operationName : Option String
  deriving Repr

/-- The empty query string. -/
def noParams : Params := { query := none, vars := none, operationName := none }

/-- Modelled from the spec: dispatch on the MIME type to extract the
body-derived fields.  JSON bodies are parsed as JSON (malformed JSON is
a fatal BadJSON); URL-encoded bodies are split into key-value pairs;
an application/graphql body becomes the query text verbatim with no
variables or operationName; a multipart body delegates field extraction
to the external form-parsing collaborator and the text value of its
query field becomes the query; any other content type derives nothing. -/
def decodeBody (cs : Codecs) (ct : ContentType) (bs : List Nat) : Except DecodeError RawOperation :=
  if ct.mime = "application/json" then
    match parseJson (decodeCharset ct.charset bs) with
    | some (Json.obj fs) =>
      .ok { query := lookupField fs "query"
            vars := lookupField fs "variables"
            operationName := lookupField fs "operationName" }
    | some _ => .ok { query := none, vars := none, operationName := none }
    | none => .error .badJson
  else if ct.mime = "application/x-www-form-urlencoded" then
    let kvs := parseUrlencoded (decodeCharset ct.charset bs)
    .ok { query := (lookupStr kvs "query").map Json.str
          vars := (lookupStr kvs "variables").map Json.str
          operationName := (lookupStr kvs "operationName").map Json.str }
  else if ct.mime = "application/graphql" then
    .ok { query := some (Json.str (decodeCharset ct.charset bs))
          vars := none
          operationName := none }
  else if ct.mime = "multipart/form-data" then
    .ok { query := (lookupStr (cs.formFields bs) "query").map Json.str
          vars := none
          operationName := none }
  else
    .ok { query := none, vars := none, operationName := none }

/-- Modelled from the spec: a query-string value overrides the body
value for its own field only. -/
def overrideField (get : Option String) (body : Option Json) : Option Json :=
  match get with
  | some s => some (Json.str s)
  | none => body

/-- Modelled from the spec: query-string parameters take precedence per
field over body-derived values, not as a whole-object replacement. -/
def mergeParams (body : RawOperation) (ps : Params) : RawOperation :=
  { query := overrideField ps.query body.query
    vars := overrideField ps.vars body.vars
    operationName := overrideField ps.operationName body.operationName }

/-- Modelled from the spec: the structured operation request produced
by a successful decode; the query text is the single required field. -/
structure OperationRequest where
  query : String
  vars : Option Json
  operationName : Option String
  deriving Repr

/-- Modelled from the spec: variables supplied as a string must
themselves be parsed as JSON; parse failure is BadVariablesJSON. -/
def normalizeVariables : Option Json → Except DecodeError (Option Json)
  | none => .ok none
  | some (Json.str s) =>
    match parseJson s with
    | some v => .ok (some v)
    | none => .error .badVariablesJson
  | some v => .ok (some v)

/-- The merged operationName field as an optional string. -/
def opNameString : Option Json → Option String
  | some (Json.str s) => some s
  | _ => none

/-- Modelled from the spec: the final decode steps after the merge; a
query that is absent or not a string is the fatal MissingQuery, checked
before variables normalization. -/
def finishDecode (merged : RawOperation) : Except DecodeError OperationRequest :=
  match merged.query with
  | some (Json.str q) =>
    match normalizeVariables merged.vars with
    | .ok vars => .ok { query := q, vars := vars, operationName := opNameString merged.operationName }
    | .error e => .error e
  | _ => .error .missingQuery

/-- Modelled from the spec: the whole body decoder, from raw bytes,
content type, content encoding and query-string parameters to a
structured operation request or a decode error. -/
def decode (cs : Codecs) (bs : List Nat) (ct : ContentType) (enc : ContentEncoding)
    (ps : Params) : Except DecodeError OperationRequest := do
  let plain ← decompress cs enc bs
  let body ← decodeBody cs ct plain
  finishDecode (mergeParams body ps)

/-! ### A GraphQL document reader for the fragment-free single-operation
documents the test scenarios execute -/

/-- An argument value in a GraphQL document: a string literal or a
variable reference. -/
inductive GValue where
  | str (s : String) : GValue
  | var (n : String) : GValue
  deriving Repr

/-- A field selection with its arguments and sub-selections. -/
inductive Selection where
  | field (name : String) (args : List (String × GValue)) (sub : List Selection) : Selection
  deriving Repr

/-- Whether a document is a query or a mutation. -/
inductive OpType where
  | query : OpType
  | mutation : OpType
  deriving Repr, DecidableEq

/-- A parsed GraphQL document of the supported subset. -/
structure Document where
  op : OpType
  sel : List Selection
  deriving Repr

/-- Ignored characters between GraphQL tokens: whitespace and commas. -/
def isGqlIgnored (c : Char) : Bool :=
  c = ' ' ∨ c = '\n' ∨ c = '\t' ∨ c = '\r' ∨ c = ','

/-- Drop ignored GraphQL characters. -/
def skipGql (cs : List Char) : List Char := cs.dropWhile isGqlIgnored

/-- Is this a GraphQL name character? -/
def isGqlName (c : Char) : Bool := c.isAlphanum ∨ c = '_'

/-- Read a maximal GraphQL name. -/
def takeGqlName (cs : List Char) : String × List Char :=
  (String.mk (cs.takeWhile isGqlName), cs.dropWhile isGqlName)

/-- Read a GraphQL string literal body after the opening quote, with the
two escapes the test documents need. -/
def readGqlString : Nat → List Char → Option (List Char × List Char)
  | 0, _ => none
  | _, [] => none
  | fuel + 1, c :: cs =>
    if c = '"' then some ([], cs)
    else if c = '\\' then
      match cs with
      | e :: cs1 => (readGqlString fuel cs1).map fun r => (e :: r.1, r.2)
      | [] => none
    else (readGqlString fuel cs).map fun r => (c :: r.1, r.2)

/-- Read one argument value: a string literal or a variable reference. -/
def readGqlValue (fuel : Nat) (cs : List Char) : Option (GValue × List Char) :=
  match skipGql cs with
  | '$' :: cs1 =>
    let (n, cs2) := takeGqlName cs1
    if n = "" then none else some (.var n, cs2)
  | '"' :: cs1 => (readGqlString fuel cs1).map fun r => (.str (String.mk r.1), r.2)
  | _ => none

/-- Read argument pairs up to the closing parenthesis. -/
def readGqlArgs : Nat → List Char → Option (List (String × GValue) × List Char)
  | 0, _ => none
  | fuel + 1, cs =>
    match skipGql cs with
    | ')' :: cs1 => some ([], cs1)
    | cs1 =>
      let (n, cs2) := takeGqlName cs1
      if n = "" then none
      else
        match skipGql cs2 with
        | ':' :: cs3 =>
          match readGqlValue fuel cs3 with
          | none => none
          | some (v, cs4) =>
            (readGqlArgs fuel cs4).map fun r => ((n, v) :: r.1, r.2)
        | _ => none

/-- A pending unit of selection reading work: a braced selection set,
the fields inside one, or a single field; a single field reports itself
as a one-element list. -/
inductive GqlTask where
  | selset : GqlTask
  | fields : GqlTask
  | fieldOne : GqlTask

/-- Read one selection reading task, fuelled. -/
def readGqlAux : Nat → GqlTask → List Char → Option (List Selection × List Char)
  | 0, _, _ => none
  | fuel + 1, .selset, cs =>
    match skipGql cs with
    | '\x7b' :: cs1 => readGqlAux fuel .fields cs1
    | _ => none
  | fuel + 1, .fields, cs =>
    match skipGql cs with
    | '\x7d' :: cs1 => some ([], cs1)
    | cs1 =>
      match readGqlAux fuel .fieldOne cs1 with
      | none => none
      | some (f, cs2) =>
        (readGqlAux fuel .fields cs2).map fun r => (f ++ r.1, r.2)
  | fuel + 1, .fieldOne, cs =>
    let (n, cs1) := takeGqlName (skipGql cs)
    if n = "" then none
    else
      let withArgs : Option (List (String × GValue) × List Char) :=
        match skipGql cs1 with
        | '(' :: cs2 => readGqlArgs fuel cs2
        | _ => some ([], cs1)
      match withArgs with
      | none => none
      | some (args, cs3) =>
        match skipGql cs3 with
        | '\x7b' :: _ =>
          (readGqlAux fuel .selset cs3).map fun r => ([Selection.field n args r.1], r.2)
        | _ => some ([Selection.field n args []], cs3)

/-- Skip a variable-definitions group up to its closing parenthesis;
the executor resolves variables dynamically by name. -/
def dropVarDefs : List Char → List Char
  | [] => []
  | ')' :: cs => cs
  | _ :: cs => dropVarDefs cs

/-- Parse a fragment-free document holding a single operation: an
optional operation keyword with optional name and variable definitions,
then one selection set, with nothing but ignored characters after it. -/
def parseDocument (s : String) : Option Document :=
  let fuel := s.length + 16
  let cs := skipGql s.toList
  let withOp : Option (OpType × List Char) :=
    match cs with
    | '\x7b' :: _ => some (.query, cs)
    | _ =>
      let (w, cs1) := takeGqlName cs
      if w = "query" ∨ w = "mutation" then
        let (_, cs2) := takeGqlName (skipGql cs1)
        let cs3 :=
          match skipGql cs2 with
          | '(' :: cs4 => dropVarDefs cs4
          | cs4 => cs4
        some (if w = "mutation" then .mutation else .query, cs3)
      else none
  match withOp with
  | none => none
  | some (op, rest) =>
    match readGqlAux fuel .selset rest with
    | some (sel, rest2) => if skipGql rest2 = [] then some ⟨op, sel⟩ else none
    | none => none

/-! ### The test schema resolvers, embedded from the source -/

/-- A JavaScript string-typed argument value as a resolver receives it:
undefined when absent, null, or a string. -/
inductive JsStringArg where
  | absent : JsStringArg
  | nullv : JsStringArg
  | str (s : String) : JsStringArg
  deriving Repr, DecidableEq

/-- The JavaScript or-else on a string argument: undefined, null and the
empty string are falsy and select the fallback. -/
def jsOrElse (who : JsStringArg) (fallback : String) : String :=
  match who with
  | .str s => if s = "" then fallback else s
  | _ => fallback

/-- The `test` field resolver of QueryRoot, embedded from the source:
it returns the string "Hello " concatenated with the `who` argument when
that is truthy and with "World" otherwise. -/
def resolveTest (who : JsStringArg) : String :=
  "Hello " ++ jsOrElse who "World"

/-! ### The operation executor over the test schema -/

/-- The two root objects of the test schema. -/
inductive RootObj where
  | queryRoot : RootObj
  | mutationRoot : RootObj
  deriving Repr, DecidableEq

/-- First value bound to a name in the variables mapping. -/
def lookupVar (vars : List (String × Json)) (n : String) : Option Json :=
  (vars.find? fun p => p.fst = n).map Prod.snd

/-- First value bound to a name in an argument list. -/
def lookupArg (args : List (String × GValue)) (n : String) : Option GValue :=
  (args.find? fun p => p.fst = n).map Prod.snd

/-- Coerce an optional argument value to the JavaScript string argument
a resolver receives, resolving variable references in the mapping. -/
def argToJs (vars : List (String × Json)) : Option GValue → JsStringArg
  | none => .absent
  | some (.str s) => .str s
  | some (.var n) =>
    match lookupVar vars n with
    | some (Json.str s) => .str s
    | some Json.null => .nullv
    | _ => .absent

/-- Modelled from the spec: execute a list of field selections in order
against a root object of the test schema, delegating field resolution to
the embedded resolvers; fuelled by selection nesting depth. -/
def execSel : Nat → List (String × Json) → RootObj → List Selection →
    Except String (List (String × Json))
  | 0, _, _, _ => .error "Query is too deep."
  | _ + 1, _, _, [] => .ok []
  | fuel + 1, vars, root, Selection.field n args sub :: ss =>
    match root with
    | .queryRoot =>
      if n = "test" then
        match execSel fuel vars root ss with
        | .ok kvs =>
          .ok (("test", Json.str (resolveTest (argToJs vars (lookupArg args "who")))) :: kvs)
        | .error e => .error e
      else .error ("Cannot query field \"" ++ n ++ "\" on type \"QueryRoot\".")
    | .mutationRoot =>
      if n = "writeTest" then
        match execSel fuel vars .queryRoot sub with
        | .ok fs =>
          match execSel fuel vars root ss with
          | .ok kvs => .ok (("writeTest", Json.obj fs) :: kvs)
          | .error e => .error e
        | .error e => .error e
      else .error ("Cannot query field \"" ++ n ++ "\" on type \"MutationRoot\".")

/-- The variables mapping of an operation request; a non-object value
contributes no bindings. -/
def varsOf : Option Json → List (String × Json)
  | some (Json.obj fs) => fs
  | _ => []

/-- Modelled from the spec: execute a decoded operation request against
the test schema, producing the JSON result document. -/
def executeRequest (req : OperationRequest) : Except String Json :=
  match parseDocument req.query with
  | none => .error "Syntax Error"
  | some doc =>
    let root : RootObj := match doc.op with
      | .query => .queryRoot
      | .mutation => .mutationRoot
    match execSel (req.query.length + 1) (varsOf req.vars) root doc.sel with
    | .ok fs => .ok (Json.obj [("data", Json.obj fs)])
    | .error e => .error e

/-! ### The HTTP adapter, modelled from the spec -/

/-- An HTTP response: a status code and a JSON body text. -/
structure HttpResponse where
  status : Nat
  body : String
  deriving Repr, DecidableEq

/-- A single-message errors document as JSON text. -/
def errorBody (msg : String) : String :=
  renderJson (Json.obj [("errors", Json.arr [Json.obj [("message", Json.str msg)]])])

/-- Modelled from the spec: the message reported for each decode-stage
error kind; the missing-query case is pinned by the test suite. -/
def decodeErrorMessage : DecodeError → String
  | .badEncoding => "Invalid content encoding."
  | .badJson => "POST body sent invalid JSON."
  | .badVariablesJson => "Variables are invalid JSON."
  | .missingQuery => "Must provide query string."

/-- A POST request to the endpoint: body bytes, the Content-Type header,
the content encoding, and the query-string parameters. -/
structure Request where
  body : List Nat
  contentType : String
  encoding : ContentEncoding
  params : Params

/-- Modelled from the spec: the HTTP adapter; decode-stage failures map
to status 400 with a single-element errors array, while requests that
reach execution respond with status 200, GraphQL-level errors included. -/
def handle (cs : Codecs) (r : Request) : HttpResponse :=
  match decode cs r.body (parseContentType r.contentType) r.encoding r.params with
  | .error e => { status := 400, body := errorBody (decodeErrorMessage e) }
  | .ok req =>
    match executeRequest req with
    | .ok result => { status := 200, body := renderJson result }
    | .error msg => { status := 200, body := errorBody msg }

/-- The identity codecs: decompression used at identity encoding only
never consults them, their form parser extracts no fields, and they
serve as a concrete witness codec. -/
def idCodecs : Codecs :=
  { gunzip := fun bs => some bs
    inflate := fun bs => some bs
    formFields := fun _ => [] }

/-- The server processes a request list in order; the schema is the only
cross-request state and it is immutable, so each response depends only
on its own request. -/
def serve (cs : Codecs) : List Request → List HttpResponse
  | [] => []
  | r :: rs => handle cs r :: serve cs rs

/-! ### Helper lemmas -/

/-- The server answers every request: one response per request. -/
theorem serve_length (cs : Codecs) (reqs : List Request) :
    (serve cs reqs).length = reqs.length := by
  induction reqs with
  | nil => rfl
  | cons r rs ih => simpa [serve] using ih

/-- The response at a position is the handler applied to the request at
that position: no other request influences it. -/
theorem serve_get (cs : Codecs) (reqs : List Request) (i : Nat) (hi : i < reqs.length) :
    (serve cs reqs).get ⟨i, (serve_length cs reqs).symm ▸ hi⟩ = handle cs (reqs.get ⟨i, hi⟩) := by
  induction reqs generalizing i with
  | nil => exact absurd hi (Nat.not_lt_zero i)
  | cons r rs ih =>
    cases i with
    | zero => rfl
    | succ n => exact ih n (Nat.lt_of_succ_lt_succ hi)

/-! ### The claims -/

/-- C1: a POST with Content-Type application/json whose JSON body binds
query to the document selecting the test field responds, over the test
schema, with body exactly the hello-world data document, whatever the
zlib codecs are. -/
theorem c1_post_json_hello_world (cs : Codecs) :
    handle cs { body := utf8Encode "\x7b\"query\":\"\x7btest\x7d\"\x7d"
                contentType := "application/json"
                encoding := .identity
                params := noParams }
      = { status := 200, body := "\x7b\"data\":\x7b\"test\":\"Hello World\"\x7d\x7d" } := rfl

/-- C6: a POST with Content-Type application/json carrying the helloWho
query and variables binding who to Dolly responds with body exactly the
hello-dolly data document. -/
theorem c6_post_json_variables_dolly (cs : Codecs) :
    handle cs { body := utf8Encode
                  "\x7b\"query\":\"query helloWho($who: String)\x7b test(who: $who) \x7d\",\"variables\":\x7b\"who\":\"Dolly\"\x7d\x7d"
                contentType := "application/json"
                encoding := .identity
                params := noParams }
      = { status := 200, body := "\x7b\"data\":\x7b\"test\":\"Hello Dolly\"\x7d\x7d" } := rfl

/-- C7: a POST of the mutation document TestMutation against the test
schema returns HTTP status 200 with body exactly the data document
nesting hello-world under writeTest. -/
theorem c7_post_mutation_write_test (cs : Codecs) :
    handle cs { body := utf8Encode
                  "\x7b\"query\":\"mutation TestMutation \x7b writeTest \x7b test \x7d \x7d\"\x7d"
                contentType := "application/json"
                encoding := .identity
                params := noParams }
      = { status := 200
          body := "\x7b\"data\":\x7b\"writeTest\":\x7b\"test\":\"Hello World\"\x7d\x7d\x7d" } := rfl

/-- C10: the test resolver embedded from the source computes Hello World
for every falsy who argument, absent, null or the empty string, and in
particular querying test with an empty who returns Hello World rather
than the bare greeting. -/
theorem c10_falsy_who_hello_world :
    resolveTest .absent = "Hello World" ∧
    resolveTest .nullv = "Hello World" ∧
    resolveTest (.str "") = "Hello World" ∧
    resolveTest (.str "") ≠ "Hello " ∧
    resolveTest (.str "Dolly") = "Hello Dolly" ∧
    handle idCodecs { body := utf8Encode "\x7b\"query\":\"\x7b test(who: \\\"\\\") \x7d\"\x7d"
                      contentType := "application/json"
                      encoding := .identity
                      params := noParams }
      = { status := 200, body := "\x7b\"data\":\x7b\"test\":\"Hello World\"\x7d\x7d" } :=
  ⟨rfl, rfl, rfl, by decide, rfl, rfl⟩

/-- A decode-stage failure maps to HTTP 400 carrying the single message
of its error kind. -/
theorem handle_of_decode_error (cs : Codecs) (r : Request) (e : DecodeError)
    (h : decode cs r.body (parseContentType r.contentType) r.encoding r.params = .error e) :
    handle cs r = { status := 400, body := errorBody (decodeErrorMessage e) } := by
  unfold handle
  rw [h]

/-- A request whose content type is neither JSON, URL-encoded nor
graphql, and whose multipart fields (when the type is multipart) carry
no query, decodes to the missing-query error when the query string
carries no query either, whatever its body. -/
theorem decode_unknown_ct_missing_query (cs : Codecs) (bs : List Nat) (ct : ContentType)
    (ps : Params)
    (hjson : ct.mime ≠ "application/json")
    (hform : ct.mime ≠ "application/x-www-form-urlencoded")
    (hgql : ct.mime ≠ "application/graphql")
    (hmult : ct.mime = "multipart/form-data" → lookupStr (cs.formFields bs) "query" = none)
    (hq : ps.query = none) :
    decode cs bs ct .identity ps = .error .missingQuery := by
  obtain ⟨pq, pv, po⟩ := ps
  change pq = none at hq
  subst hq
  have hbody : decodeBody cs ct bs = .ok ⟨none, none, none⟩ := by
    unfold decodeBody
    rw [if_neg hjson, if_neg hform, if_neg hgql]
    by_cases hm : ct.mime = "multipart/form-data"
    · rw [if_pos hm, hmult hm]
      rfl
    · rw [if_neg hm]
  have e1 : decode cs bs ct .identity ⟨none, pv, po⟩
      = decodeBody cs ct bs >>= fun body => finishDecode (mergeParams body ⟨none, pv, po⟩) := rfl
  rw [e1, hbody]
  rfl

/-- C2: a POST from which no query text is derivable because its
content type is none of the body-bearing ones, JSON, URL-encoded and
graphql (the wildcard type of the pre-parsed text and raw-buffer tests
included), and, when the type is multipart, the form parser extracts no
query field, and whose query string carries no query, is answered with
status 400 and exactly the single-message must-provide-query-string
errors document, a missing-query report rather than a generic parse
error. -/
theorem c2_unknown_ct_missing_query_400 (cs : Codecs) (bs : List Nat) (ct : String)
    (ps : Params)
    (hjson : (parseContentType ct).mime ≠ "application/json")
    (hform : (parseContentType ct).mime ≠ "application/x-www-form-urlencoded")
    (hgql : (parseContentType ct).mime ≠ "application/graphql")
    (hmult : (parseContentType ct).mime = "multipart/form-data" →
      lookupStr (cs.formFields bs) "query" = none)
    (hq : ps.query = none) :
    handle cs { body := bs, contentType := ct, encoding := .identity, params := ps }
      = { status := 400
          body := "\x7b\"errors\":[\x7b\"message\":\"Must provide query string.\"\x7d]\x7d" } :=
  handle_of_decode_error cs _ .missingQuery
    (decode_unknown_ct_missing_query cs bs (parseContentType ct) ps hjson hform hgql hmult hq)

/-- Witness for C2: the pre-parsed wildcard content type with a raw
graphql-looking body and an empty query string is answered with 400 and
the must-provide-query-string document. -/
theorem c2_unknown_ct_missing_query_400_witness :
    (parseContentType "*/*").mime ≠ "application/json" ∧
    (parseContentType "*/*").mime ≠ "application/x-www-form-urlencoded" ∧
    (parseContentType "*/*").mime ≠ "application/graphql" ∧
    ((parseContentType "*/*").mime = "multipart/form-data" →
      lookupStr (idCodecs.formFields (utf8Encode "\x7b test(who: \"World\") \x7d")) "query" = none) ∧
    noParams.query = none ∧
    handle idCodecs { body := utf8Encode "\x7b test(who: \"World\") \x7d"
                      contentType := "*/*"
                      encoding := .identity
                      params := noParams }
      = { status := 400
          body := "\x7b\"errors\":[\x7b\"message\":\"Must provide query string.\"\x7d]\x7d" } :=
  ⟨by decide, by decide, by decide, fun _ => rfl, rfl,
    c2_unknown_ct_missing_query_400 idCodecs (utf8Encode "\x7b test(who: \"World\") \x7d")
      "*/*" noParams (by decide) (by decide) (by decide) (fun _ => rfl) rfl⟩

/-- C3: query-string parameters override body-derived values field by
field, never as a whole-object replacement: a supplied field replaces
only its own slot and an absent one leaves the body value; in particular
a JSON POST body carrying only the helloWho query combined with
query-string variables binding who to Dolly executes to the hello-dolly
document, and an application/graphql POST body combined with a
query-string operationName decodes to a request carrying the body text
as query and the query-string operation name. -/
theorem c3_query_string_overrides_per_field (bq bv bo : Option Json) (s t u : String) :
    mergeParams ⟨bq, bv, bo⟩ ⟨some s, some t, some u⟩
      = ⟨some (Json.str s), some (Json.str t), some (Json.str u)⟩ ∧
    mergeParams ⟨bq, bv, bo⟩ ⟨none, some t, none⟩ = ⟨bq, some (Json.str t), bo⟩ ∧
    mergeParams ⟨bq, bv, bo⟩ ⟨none, none, some u⟩ = ⟨bq, bv, some (Json.str u)⟩ ∧
    mergeParams ⟨bq, bv, bo⟩ noParams = ⟨bq, bv, bo⟩ ∧
    handle idCodecs
        { body := utf8Encode "\x7b\"query\":\"query helloWho($who: String)\x7b test(who: $who) \x7d\"\x7d"
          contentType := "application/json"
          encoding := .identity
          params := { query := none, vars := some "\x7b\"who\":\"Dolly\"\x7d", operationName := none } }
      = { status := 200, body := "\x7b\"data\":\x7b\"test\":\"Hello Dolly\"\x7d\x7d" } ∧
    decode idCodecs
        (utf8Encode "query helloYou \x7b test(who: \"You\") \x7d query helloWorld \x7b test \x7d")
        { mime := "application/graphql", charset := none } .identity
        { query := none, vars := none, operationName := some "helloWorld" }
      = .ok { query := "query helloYou \x7b test(who: \"You\") \x7d query helloWorld \x7b test \x7d"
              vars := none
              operationName := some "helloWorld" } :=
  ⟨rfl, rfl, rfl, rfl, rfl, rfl⟩

/-- C4: a body sent gzip-compressed under Content-Encoding gzip, or
deflate-compressed under Content-Encoding deflate, is handled exactly as
the decompressed body sent uncompressed: the bytes are fully
decompressed before any interpretation. -/
theorem c4_compressed_same_as_uncompressed (cs : Codecs) (c b : List Nat) (ct : String)
    (ps : Params) :
    (cs.gunzip c = some b →
      handle cs { body := c, contentType := ct, encoding := .gzip, params := ps }
        = handle cs { body := b, contentType := ct, encoding := .identity, params := ps }) ∧
    (cs.inflate c = some b →
      handle cs { body := c, contentType := ct, encoding := .deflate, params := ps }
        = handle cs { body := b, contentType := ct, encoding := .identity, params := ps }) := by
  constructor
  · intro h
    have e2 : decompress cs .gzip c = .ok b := by
      simp only [decompress]
      rw [h]
    have hd : decode cs c (parseContentType ct) .gzip ps
        = decode cs b (parseContentType ct) .identity ps := by
      have e1 : decode cs c (parseContentType ct) .gzip ps
          = decompress cs .gzip c >>= fun plain =>
              decodeBody cs (parseContentType ct) plain >>= fun body =>
                finishDecode (mergeParams body ps) := rfl
      rw [e1, e2]
      rfl
    unfold handle
    rw [hd]
  · intro h
    have e2 : decompress cs .deflate c = .ok b := by
      simp only [decompress]
      rw [h]
    have hd : decode cs c (parseContentType ct) .deflate ps
        = decode cs b (parseContentType ct) .identity ps := by
      have e1 : decode cs c (parseContentType ct) .deflate ps
          = decompress cs .deflate c >>= fun plain =>
              decodeBody cs (parseContentType ct) plain >>= fun body =>
                finishDecode (mergeParams body ps) := rfl
      rw [e1, e2]
      rfl
    unfold handle
    rw [hd]

/-- Witness for C4: with the identity codecs, the gzip-encoded and the
deflate-encoded requests over the world-greeting JSON body are handled
exactly as the identity-encoded request. -/
theorem c4_compressed_same_as_uncompressed_witness :
    handle idCodecs { body := utf8Encode "\x7b\"query\":\"\x7b test(who: \\\"World\\\") \x7d\"\x7d"
                      contentType := "application/json"
                      encoding := .gzip
                      params := noParams }
      = handle idCodecs { body := utf8Encode "\x7b\"query\":\"\x7b test(who: \\\"World\\\") \x7d\"\x7d"
                          contentType := "application/json"
                          encoding := .identity
                          params := noParams } ∧
    handle idCodecs { body := utf8Encode "\x7b\"query\":\"\x7b test(who: \\\"World\\\") \x7d\"\x7d"
                      contentType := "application/json"
                      encoding := .deflate
                      params := noParams }
      = handle idCodecs { body := utf8Encode "\x7b\"query\":\"\x7b test(who: \\\"World\\\") \x7d\"\x7d"
                          contentType := "application/json"
                          encoding := .identity
                          params := noParams } :=
  ⟨(c4_compressed_same_as_uncompressed idCodecs
      (utf8Encode "\x7b\"query\":\"\x7b test(who: \\\"World\\\") \x7d\"\x7d")
      (utf8Encode "\x7b\"query\":\"\x7b test(who: \\\"World\\\") \x7d\"\x7d")
      "application/json" noParams).1 rfl,
   (c4_compressed_same_as_uncompressed idCodecs
      (utf8Encode "\x7b\"query\":\"\x7b test(who: \\\"World\\\") \x7d\"\x7d")
      (utf8Encode "\x7b\"query\":\"\x7b test(who: \\\"World\\\") \x7d\"\x7d")
      "application/json" noParams).2 rfl⟩

set_option maxRecDepth 8192 in
/-- C5: variables supplied as a JSON-encoded string decode to the same
mapping as the equivalent JSON object supplied directly, so the two
forms finish decoding identically for any body and transport; the four
concrete transports of the variables tests, a JSON body with string
variables, a JSON body with object variables, a URL-encoded body with
string variables and query-string variables, all execute to the
hello-dolly document. -/
theorem c5_string_variables_same_as_object (q o : Option Json) (s : String)
    (fs : List (String × Json)) (hp : parseJson s = some (Json.obj fs)) :
    finishDecode ⟨q, some (Json.str s), o⟩ = finishDecode ⟨q, some (Json.obj fs), o⟩ ∧
    handle idCodecs
        { body := utf8Encode "\x7b\"query\":\"query helloWho($who: String)\x7b test(who: $who) \x7d\",\"variables\":\"\x7b\\\"who\\\":\\\"Dolly\\\"\x7d\"\x7d"
          contentType := "application/json"
          encoding := .identity
          params := noParams }
      = { status := 200, body := "\x7b\"data\":\x7b\"test\":\"Hello Dolly\"\x7d\x7d" } ∧
    handle idCodecs
        { body := utf8Encode "\x7b\"query\":\"query helloWho($who: String)\x7b test(who: $who) \x7d\",\"variables\":\x7b\"who\":\"Dolly\"\x7d\x7d"
          contentType := "application/json"
          encoding := .identity
          params := noParams }
      = { status := 200, body := "\x7b\"data\":\x7b\"test\":\"Hello Dolly\"\x7d\x7d" } ∧
    handle idCodecs
        { body := utf8Encode "query=query%20helloWho(%24who%3A%20String)%7B%20test(who%3A%20%24who)%20%7D&variables=%7B%22who%22%3A%22Dolly%22%7D"
          contentType := "application/x-www-form-urlencoded"
          encoding := .identity
          params := noParams }
      = { status := 200, body := "\x7b\"data\":\x7b\"test\":\"Hello Dolly\"\x7d\x7d" } ∧
    handle idCodecs
        { body := []
          contentType := ""
          encoding := .identity
          params := { query := some "query helloWho($who: String)\x7b test(who: $who) \x7d"
                      vars := some "\x7b\"who\":\"Dolly\"\x7d"
                      operationName := none } }
      = { status := 200, body := "\x7b\"data\":\x7b\"test\":\"Hello Dolly\"\x7d\x7d" } := by
  refine ⟨?_, rfl, rfl, rfl, rfl⟩
  rcases q with _ | j
  · rfl
  · cases j with
    | str a => simp only [finishDecode, normalizeVariables, hp]
    | null => rfl
    | bool b => rfl
    | num lit => rfl
    | arr xs => rfl
    | obj gs => rfl

/-- Witness for C5: the dolly variables string parses to the dolly
mapping and the equivalence holds at it. -/
theorem c5_string_variables_same_as_object_witness :
    finishDecode ⟨some (Json.str "\x7btest\x7d"), some (Json.str "\x7b\"who\":\"Dolly\"\x7d"), none⟩
      = finishDecode ⟨some (Json.str "\x7btest\x7d"),
          some (Json.obj [("who", Json.str "Dolly")]), none⟩ :=
  (c5_string_variables_same_as_object (some (Json.str "\x7btest\x7d")) none
    "\x7b\"who\":\"Dolly\"\x7d" [("who", Json.str "Dolly")] rfl).1

/-- C8: an application/graphql POST body becomes the query text
verbatim, the whole decompressed byte sequence decoded with the charset
of the Content-Type, and derives no variables and no operation name; a
UTF-16LE body under charset utf-16 and a default UTF-8 body both execute
the world greeting. -/
theorem c8_graphql_body_verbatim_query (cs : Codecs) (bs : List Nat) (cset : Option String) :
    decodeBody cs { mime := "application/graphql", charset := cset } bs
      = .ok { query := some (Json.str (decodeCharset cset bs))
              vars := none
              operationName := none } ∧
    handle idCodecs { body := utf16leEncode "\x7b test(who: \"World\") \x7d"
                      contentType := "application/graphql; charset=utf-16"
                      encoding := .identity
                      params := noParams }
      = { status := 200, body := "\x7b\"data\":\x7b\"test\":\"Hello World\"\x7d\x7d" } ∧
    handle idCodecs { body := utf8Encode "\x7b test(who: \"World\") \x7d"
                      contentType := "application/graphql"
                      encoding := .identity
                      params := noParams }
      = { status := 200, body := "\x7b\"data\":\x7b\"test\":\"Hello World\"\x7d\x7d" } :=
  ⟨rfl, rfl, rfl⟩

/-- C9: the handler is deterministic and requests share no mutable
state: two equal requests anywhere in a served request list receive
equal responses. -/
theorem c9_equal_requests_equal_responses (cs : Codecs) (reqs : List Request)
    (i j : Nat) (hi : i < reqs.length) (hj : j < reqs.length)
    (heq : reqs.get ⟨i, hi⟩ = reqs.get ⟨j, hj⟩) :
    (serve cs reqs).get ⟨i, (serve_length cs reqs).symm ▸ hi⟩
      = (serve cs reqs).get ⟨j, (serve_length cs reqs).symm ▸ hj⟩ := by
  rw [serve_get cs reqs i hi, serve_get cs reqs j hj, heq]

/-- Witness for C9: serving the same hello-world request twice yields
the same response at both positions. -/
theorem c9_equal_requests_equal_responses_witness :
    (serve idCodecs [{ body := utf8Encode "\x7b\"query\":\"\x7btest\x7d\"\x7d"
                       contentType := "application/json"
                       encoding := .identity
                       params := noParams },
                     { body := utf8Encode "\x7b\"query\":\"\x7btest\x7d\"\x7d"
                       contentType := "application/json"
                       encoding := .identity
                       params := noParams }]).get ⟨0, by simp [serve]⟩
      = (serve idCodecs [{ body := utf8Encode "\x7b\"query\":\"\x7btest\x7d\"\x7d"
                           contentType := "application/json"
                           encoding := .identity
                           params := noParams },
                         { body := utf8Encode "\x7b\"query\":\"\x7btest\x7d\"\x7d"
                           contentType := "application/json"
                           encoding := .identity
                           params := noParams }]).get ⟨1, by simp [serve]⟩ :=
  c9_equal_requests_equal_responses idCodecs _ 0 1 (by simp) (by simp) rfl

end ReqEx
